import Mathlib

/-!
Shallow embedding of the SKILL-SYNC API route handlers (Next.js + Prisma)
and proofs about the membership/application workflow, the project registry
and the skill registry.

Sources embedded:
- `src/src/app/api/projects/join/route.ts` (POST: Apply)
- `src/src/app/api/projects/member/route.ts` (PATCH: Respond, DELETE: Remove)
- `src/src/app/api/projects/route.ts` (GET: List, POST: Create, DELETE: Delete)
- `src/src/app/api/user-skills/route.ts` (DELETE: skill delete)
- `src/prisma/migrations` (data model: defaults, enum, nullability)

Conventions of the embedding:
- The relational store is a `Store` of lists of rows; a Prisma call becomes
  an explicit pure operation on the lists.
- The Clerk authentication step (the 401 branch) is outside the model: every
  handler takes the already-authenticated caller as a parameter.
- JavaScript falsy coercions such as `(body.x as string) || undefined` are
  modelled by `orUndefined`; a JSON field is `Option String` where `none`
  stands for an absent field.
- Timestamps are `Nat`; `new Date()` becomes an explicit `now` parameter.
- String helpers (`trimStr`, `splitComma`, `lowerStr`, `strContains`) are
  structural-recursion re-implementations of the JavaScript `trim`,
  `split(",")`, `toLowerCase` and `includes` used by the handlers, so that
  concrete runs reduce inside the kernel.
-/

/-- Drop leading whitespace characters from a character list. -/
def dropLeadingWs : List Char → List Char
  | [] => []
  | c :: cs => if c.isWhitespace then dropLeadingWs cs else c :: cs

/-- Embedding of the JavaScript `String.prototype.trim` used by the skill
normalizers: strip leading and trailing whitespace. -/
def trimStr (s : String) : String :=
  ⟨(dropLeadingWs ((dropLeadingWs s.data).reverse)).reverse⟩

/-- Helper for `splitComma`: accumulate the current token (reversed). -/
def splitCommaAux : List Char → List Char → List String
  | [], acc => [⟨acc.reverse⟩]
  | c :: cs, acc =>
    if c = ',' then ⟨acc.reverse⟩ :: splitCommaAux cs [] else splitCommaAux cs (c :: acc)

/-- Embedding of the JavaScript `String.prototype.split(",")`. -/
def splitComma (s : String) : List String :=
  splitCommaAux s.data []

/-- Boolean list-prefix test on characters. -/
def charsPrefixOf : List Char → List Char → Bool
  | [], _ => true
  | _ :: _, [] => false
  | c :: cs, d :: ds => c == d && charsPrefixOf cs ds

/-- Boolean contiguous-sublist test on characters (needle, haystack). -/
def charsInfixOf (needle : List Char) : List Char → Bool
  | [] => needle.isEmpty
  | d :: ds => charsPrefixOf needle (d :: ds) || charsInfixOf needle ds

/-- Embedding of the JavaScript `String.prototype.includes`:
`strContains hay needle` is true when `needle` occurs in `hay`. -/
def strContains (hay needle : String) : Bool :=
  charsInfixOf needle.data hay.data

/-- Embedding of the JavaScript `String.prototype.toLowerCase` (ASCII range,
which covers every string the handlers compare after lowercasing). -/
def lowerStr (s : String) : String :=
  ⟨s.data.map Char.toLower⟩

/-- Embedding of the coercion `(body.x as string) || undefined`: an absent
field and an empty string both become `none`. -/
def orUndefined : Option String → Option String
  | none => none
  | some v => if v = "" then none else some v

/-- Truthiness test for an optional string parameter, as in the handler
guards `if (!projectId) ...`. -/
def isBlank (o : Option String) : Bool :=
  o.getD "" == ""

/-- Prisma update-field semantics: a field set to `undefined` in an `update`
payload leaves the stored value unchanged, any other value overwrites it. -/
def updField (newV old : Option String) : Option String :=
  match newV with
  | some v => some v
  | none => old

/-- The `skills` / `requiredSkills` JSON field of a request body: an array of
strings, a single comma-separated string, or anything else (modelled as
`other`, covering `undefined` and non-string, non-array values). -/
inductive SkillsField where
  | list (xs : List String)
  | str (s : String)
  | other
deriving DecidableEq

/-- User row (`User` table): identity-provider id, email and profile parts. -/
structure User where
  id : String
  email : String
  firstName : Option String
  lastName : Option String
  imageUrl : Option String
deriving DecidableEq

/-- Project row, per the `Project` table of the Prisma migration. -/
structure Project where
  id : String
  title : String
  shortDescription : String
  description : String
  category : String
  requiredSkills : List String
  difficulty : String
  teamSize : Option Int
  status : Option String
  durationWeeks : Option Int
  creatorId : String
  attachments : List String
  bannerUrl : Option String
  featured : Bool
  createdAt : Nat
deriving DecidableEq

/-- The `ProjectMemberStatus` enum of the migration. -/
inductive MemberStatus where
  | APPLIED
  | ACCEPTED
  | REJECTED
deriving DecidableEq

/-- ProjectMember row, per the `ProjectMember` table plus the columns added
by the application-workflow migration; `(userId, projectId)` is the
composite unique key `userId_projectId`. -/
structure ProjectMember where
  userId : String
  projectId : String
  role : String
  fullName : Option String
  contactInfo : Option String
  portfolioUrl : Option String
  skills : List String
  preferredRole : Option String
  availability : Option String
  motivation : Option String
  agreedToGuidelines : Bool
  status : MemberStatus
  acceptedAt : Option Nat
deriving DecidableEq

/-- Skill row, per the `Skill` table of the user-skills migration. -/
structure Skill where
  id : String
  name : String
  level : String
  category : String
  type : String
  userId : String
deriving DecidableEq

/-- The relational store the handlers read and write. -/
structure Store where
  users : List User
  projects : List Project
  members : List ProjectMember
  skills : List Skill
deriving DecidableEq

/-- Error taxonomy of the handlers, tagged with the HTTP status each handler
returns: validation 400, forbidden 403, notFound 404, internal 500. -/
inductive ApiError where
  | validation (msg : String)
  | forbidden (msg : String)
  | notFound (msg : String)
  | internal (msg : String)
deriving DecidableEq

/-- Prisma `user.upsert` with an empty `update` payload, as both the join and
the project-create handlers perform it: insert the row when the id is new,
otherwise change nothing. -/
def upsertUser (u : User) (s : Store) : Store :=
  if s.users.any (fun x => x.id == u.id) then s
  else { s with users := s.users ++ [u] }

/-- Replace every row matching the predicate by the given row. Under the
composite-unique constraint at most one row matches, so this coincides with
the Prisma single-row `update` by unique key. -/
def replaceWhere (p : α → Bool) (y : α) (l : List α) : List α :=
  l.map fun x => if p x then y else x

/-- The composite key predicate `userId_projectId` on membership rows. -/
def memberKey (userId projectId : String) (m : ProjectMember) : Bool :=
  m.userId == userId && m.projectId == projectId

/-- Request body of the Apply handler (`POST /api/projects/join`), after the
JSON parse: each field is the raw JSON value, `agreedToGuidelines` already
coerced through `Boolean(...)` as in the source. -/
structure JoinBody where
  projectId : Option String
  fullName : Option String
  contactInfo : Option String
  portfolioUrl : Option String
  skills : SkillsField
  preferredRole : Option String
  availability : Option String
  motivation : Option String
  agreedToGuidelines : Bool
deriving DecidableEq

/-- Skill normalization of the join handler: an array is mapped through
`String(s).trim()` and empties dropped, a string is split on commas, trimmed
and empties dropped, anything else yields the empty list. -/
def normSkills : SkillsField → List String
  | .list xs => (xs.map trimStr).filter (fun s => s ≠ "")
  | .str s => ((splitComma s).map trimStr).filter (fun t => t ≠ "")
  | .other => []

/-- The `update` branch of the membership upsert in the join handler: each
application field is `field || undefined`, so an absent or empty field leaves
the stored value unchanged; `skills` and `agreedToGuidelines` are always
written; `role`, `status` and `acceptedAt` do not appear in the payload. -/
def applyMemberUpdate (b : JoinBody) (m : ProjectMember) : ProjectMember :=
  { m with
    fullName := updField (orUndefined b.fullName) m.fullName
    contactInfo := updField (orUndefined b.contactInfo) m.contactInfo
    portfolioUrl := updField (orUndefined b.portfolioUrl) m.portfolioUrl
    skills := normSkills b.skills
    preferredRole := updField (orUndefined b.preferredRole) m.preferredRole
    availability := updField (orUndefined b.availability) m.availability
    motivation := updField (orUndefined b.motivation) m.motivation
    agreedToGuidelines := b.agreedToGuidelines }

/-- The `create` branch of the membership upsert in the join handler:
`role` defaults to the preferred role or `"Contributor"`; `status` and
`acceptedAt` take the schema defaults `APPLIED` and null. -/
def applyMemberCreate (callerId pid : String) (b : JoinBody) : ProjectMember :=
  { userId := callerId
    projectId := pid
    role := (orUndefined b.preferredRole).getD "Contributor"
    fullName := orUndefined b.fullName
    contactInfo := orUndefined b.contactInfo
    portfolioUrl := orUndefined b.portfolioUrl
    skills := normSkills b.skills
    preferredRole := orUndefined b.preferredRole
    availability := orUndefined b.availability
    motivation := orUndefined b.motivation
    agreedToGuidelines := b.agreedToGuidelines
    status := .APPLIED
    acceptedAt := none }

/-- Embedding of the Apply handler, `POST` of
`src/src/app/api/projects/join/route.ts` (primary path: the generated
client has the extended upsert; the stale-client fallback branches are the
degraded mode this embedding does not model). `caller` is the authenticated
user the handler upserts into the `User` table before the membership
upsert. -/
def joinPOST (caller : User) (body : JoinBody) (s : Store) :
    Except ApiError ProjectMember × Store :=
  match orUndefined body.projectId with
  | none => (.error (.validation "projectId required"), s)
  | some pid =>
    if !body.agreedToGuidelines then
      (.error (.validation "You must agree to guidelines"), s)
    else
      match s.projects.find? (fun p => p.id == pid) with
      | none => (.error (.notFound "Project not found"), s)
      | some _ =>
        let s1 := upsertUser caller s
        match s1.members.find? (memberKey caller.id pid) with
        | some m =>
          let m' := applyMemberUpdate body m
          (.ok m', { s1 with members := replaceWhere (memberKey caller.id pid) m' s1.members })
        | none =>
          let m := applyMemberCreate caller.id pid body
          (.ok m, { s1 with members := s1.members ++ [m] })

/-- Embedding of the Respond handler, `PATCH` of
`src/src/app/api/projects/member/route.ts`. `projectId`/`memberId` are the
query or body parameters, `actionRaw` is lowercased as in the source, `now`
is the clock value taken by `new Date()`. A missing membership row makes the
Prisma `update` throw, which the handler catches and turns into a 500. -/
def memberPATCH (callerId : String) (projectId memberId : Option String)
    (actionRaw : String) (now : Nat) (s : Store) :
    Except ApiError ProjectMember × Store :=
  let action := lowerStr actionRaw
  if isBlank projectId || isBlank memberId || (action == "") then
    (.error (.validation "projectId, userId and action required"), s)
  else
    let pid := projectId.getD ""
    let mid := memberId.getD ""
    match s.projects.find? (fun p => p.id == pid) with
    | none => (.error (.notFound "Project not found"), s)
    | some proj =>
      if proj.creatorId ≠ callerId then (.error (.forbidden "Forbidden"), s)
      else if action == "accept" then
        match s.members.find? (memberKey mid pid) with
        | none => (.error (.internal "Failed to update member status"), s)
        | some m =>
          let m' := { m with status := .ACCEPTED, acceptedAt := some now }
          (.ok m', { s with members := replaceWhere (memberKey mid pid) m' s.members })
      else if action == "reject" then
        match s.members.find? (memberKey mid pid) with
        | none => (.error (.internal "Failed to update member status"), s)
        | some m =>
          let m' := { m with status := .REJECTED }
          (.ok m', { s with members := replaceWhere (memberKey mid pid) m' s.members })
      else (.error (.validation "Invalid action"), s)

/-- Embedding of the Remove handler, `DELETE` of
`src/src/app/api/projects/member/route.ts`: permission check against the
project creator or the member themself, then an unconditional
`deleteMany` on the `(projectId, userId)` match. -/
def memberDELETE (callerId : String) (projectId memberId : Option String)
    (s : Store) : Except ApiError Unit × Store :=
  if isBlank projectId || isBlank memberId then
    (.error (.validation "projectId and userId (member) required"), s)
  else
    let pid := projectId.getD ""
    let mid := memberId.getD ""
    match s.projects.find? (fun p => p.id == pid) with
    | none => (.error (.notFound "Project not found"), s)
    | some proj =>
      if proj.creatorId ≠ callerId ∧ mid ≠ callerId then
        (.error (.forbidden "Forbidden"), s)
      else
        (.ok (), { s with members := s.members.filter (fun m => !(m.projectId == pid && m.userId == mid)) })

/-- Embedding of the skill delete handler, `DELETE` of
`src/src/app/api/user-skills/route.ts`: `prisma.skill.delete` with the
compound `where { id, userId: caller }`; when no row matches (in particular
when the row with that id belongs to another user) Prisma throws, the
handler catches and returns the generic 500 message. -/
def skillsDELETE (callerId : String) (id : Option String) (s : Store) :
    Except ApiError Unit × Store :=
  match id with
  | none => (.error (.validation "Missing skill ID"), s)
  | some i =>
    match s.skills.find? (fun sk => sk.id == i && sk.userId == callerId) with
    | none => (.error (.internal "Failed to delete skill."), s)
    | some _ =>
      (.ok (), { s with skills := s.skills.filter (fun sk => !(sk.id == i && sk.userId == callerId)) })

/-- Request body of the project Create handler (`POST /api/projects`). -/
structure CreateBody where
  title : Option String
  shortDescription : Option String
  description : Option String
  category : Option String
  requiredSkills : SkillsField
  difficulty : Option String
  teamSize : Option Int
  status : Option String
  durationWeeks : Option Int
  creatorId : Option String
  attachments : Option (List String)
  bannerUrl : Option String
deriving DecidableEq

/-- Skill normalization of the project Create handler
(`src/src/app/api/projects/route.ts`, POST): an array is mapped through
`String(s).trim()` with empties dropped, a string is split on commas,
trimmed, empties dropped; anything else yields the empty list. -/
def normalizedSkills : SkillsField → List String
  | .list xs => (xs.map trimStr).filter (fun s => s ≠ "")
  | .str s => ((splitComma s).map trimStr).filter (fun t => t ≠ "")
  | .other => []

/-- Embedding of the project Create handler, `POST` of
`src/src/app/api/projects/route.ts` (primary path: the Prisma `Project`
model is available; the JSON-file fallback is the degraded mode). `newId`
is the id the store generates, `now` the creation clock. The best-effort
owner-membership insert is modelled as succeeding. -/
def projectsPOST (body : CreateBody) (newId : String) (now : Nat) (s : Store) :
    Except ApiError Project × Store :=
  match orUndefined body.title, orUndefined body.shortDescription,
        orUndefined body.description, orUndefined body.category,
        orUndefined body.difficulty, orUndefined body.creatorId with
  | some t, some sd, some d, some c, some diff, some cid =>
    let s1 := upsertUser
      { id := cid, email := cid ++ "@local.invalid",
        firstName := none, lastName := none, imageUrl := none } s
    let proj : Project :=
      { id := newId, title := t, shortDescription := sd, description := d,
        category := c, requiredSkills := normalizedSkills body.requiredSkills,
        difficulty := diff, teamSize := body.teamSize, status := body.status,
        durationWeeks := body.durationWeeks, creatorId := cid,
        attachments := body.attachments.getD [],
        bannerUrl := orUndefined body.bannerUrl, featured := false,
        createdAt := now }
    let ownerRow : ProjectMember :=
      { userId := cid, projectId := newId, role := "Owner",
        fullName := none, contactInfo := none, portfolioUrl := none,
        skills := [], preferredRole := none, availability := none,
        motivation := none, agreedToGuidelines := false,
        status := .APPLIED, acceptedAt := none }
    (.ok proj,
      { s1 with projects := s1.projects ++ [proj], members := s1.members ++ [ownerRow] })
  | _, _, _, _, _, _ => (.error (.validation "Missing required fields"), s)

/-- Embedding of the project Delete handler, `DELETE` of
`src/src/app/api/projects/route.ts` (primary path): ownership check, then
`projectMember.deleteMany({ where: { projectId } })` followed by
`project.delete({ where: { id } })`. -/
def projectsDELETE (callerId : String) (id : Option String) (s : Store) :
    Except ApiError Unit × Store :=
  if isBlank id then (.error (.validation "Project id required"), s)
  else
    let pid := id.getD ""
    match s.projects.find? (fun p => p.id == pid) with
    | none => (.error (.notFound "Not found"), s)
    | some p =>
      if p.creatorId ≠ callerId then (.error (.forbidden "Forbidden"), s)
      else
        (.ok (),
          { s with
            members := s.members.filter (fun m => !(m.projectId == pid))
            projects := s.projects.filter (fun q => !(q.id == pid)) })

/-- Filter predicate of `applyFiltersToArray` in
`src/src/app/api/projects/route.ts` (the in-memory path used on the
JSON-file fallback), per project. The parameters are the query-string
values after the `|| undefined` and `Number(...)` coercions of the
source. -/
def fallbackMatches (q category difficulty status0 : Option String)
    (maxDuration : Option Int) (p : Project) : Bool :=
  (match q with
   | none => true
   | some qv =>
     let ql := lowerStr qv
     (p.requiredSkills.any fun sk => strContains (lowerStr sk) ql)
       || strContains (lowerStr p.title) ql
       || strContains (lowerStr p.shortDescription) ql)
  && (match category with
      | none => true
      | some c => c == "All" || p.category == c)
  && (match difficulty with
      | none => true
      | some c => c == "All" || p.difficulty == c)
  && (match status0 with
      | none => true
      | some c => c == "All" || p.status == some c)
  && (match maxDuration, p.durationWeeks with
      | some n, some d => decide (d ≤ n)
      | _, _ => true)

/-- Embedding of `applyFiltersToArray` of
`src/src/app/api/projects/route.ts`. -/
def applyFiltersToArray (q category difficulty status0 : Option String)
    (maxDuration : Option Int) (items : List Project) : List Project :=
  items.filter (fallbackMatches q category difficulty status0 maxDuration)

/-- The `where` clause the `GET` handler of
`src/src/app/api/projects/route.ts` builds for `project.findMany`, read
under Prisma/SQL semantics: `contains mode insensitive` is case-insensitive
substring, `hasSome` is exact element overlap, and a comparison filter such
as `lte` on a nullable column does not match rows whose column is NULL. -/
def prismaWhereMatches (q category difficulty status0 : Option String)
    (maxDuration : Option Int) (p : Project) : Bool :=
  (match q with
   | none => true
   | some qv =>
     strContains (lowerStr p.title) (lowerStr qv)
       || strContains (lowerStr p.shortDescription) (lowerStr qv)
       || ((splitComma qv).map trimStr).any (fun t => p.requiredSkills.contains t))
  && (match category with
      | none => true
      | some c => c == "All" || p.category == c)
  && (match difficulty with
      | none => true
      | some c => c == "All" || p.difficulty == c)
  && (match status0 with
      | none => true
      | some c => c == "All" || p.status == some c)
  && (match maxDuration, p.durationWeeks with
      | some n, some d => decide (d ≤ n)
      | some _, none => false
      | none, _ => true)

/-- Embedding of the List handler, `GET` of
`src/src/app/api/projects/route.ts` (primary path: `project.findMany` with
the built `where` clause). The `orderBy createdAt desc` reordering and the
response shaping keep exactly the filtered rows, so the embedding returns
the filtered rows themselves. -/
def projectsGET_db (q category difficulty status0 : Option String)
    (maxDuration : Option Int) (s : Store) : List Project :=
  s.projects.filter (prismaWhereMatches q category difficulty status0 maxDuration)

deriving instance DecidableEq for Except

/-- Upserting a user does not change the membership table. -/
theorem upsertUser_members (u : User) (s : Store) :
    (upsertUser u s).members = s.members := by
  unfold upsertUser; split <;> rfl

/-- Upserting a user does not change the project table. -/
theorem upsertUser_projects (u : User) (s : Store) :
    (upsertUser u s).projects = s.projects := by
  unfold upsertUser; split <;> rfl

/-- Upserting a user does not change the skill table. -/
theorem upsertUser_skills (u : User) (s : Store) :
    (upsertUser u s).skills = s.skills := by
  unfold upsertUser; split <;> rfl

/-- After an upsert the user id is present. -/
theorem upsertUser_any (u : User) (s : Store) :
    (upsertUser u s).users.any (fun x => x.id == u.id) = true := by
  unfold upsertUser
  split
  · assumption
  · simp

/-- A second upsert of the same user on a store that already contains the id
is the identity. -/
theorem upsertUser_of_any (u : User) (s : Store)
    (h : s.users.any (fun x => x.id == u.id) = true) :
    upsertUser u s = s := by
  unfold upsertUser; rw [if_pos h]

/-- Replacing the matching row preserves the position of the match: the
first row satisfying the key is now the replacement. -/
theorem find?_replaceWhere {p : α → Bool} {y : α} {l : List α} {m : α}
    (hf : l.find? p = some m) (hy : p y = true) :
    (replaceWhere p y l).find? p = some y := by
  induction l with
  | nil => simp at hf
  | cons x xs ih =>
    by_cases hx : p x = true
    · simp [replaceWhere, List.find?_cons, hx, hy]
    · rw [List.find?_cons_of_neg _ (by simp [hx])] at hf
      have hx' : p x = false := by simp [hx]
      simp [replaceWhere, List.find?_cons, hx', hy]
      simpa [replaceWhere] using ih hf

/-- Replacing matching rows by a row that itself matches preserves the
number of matching rows. -/
theorem countP_replaceWhere {p : α → Bool} {y : α} (hy : p y = true) (l : List α) :
    (replaceWhere p y l).countP p = l.countP p := by
  induction l with
  | nil => rfl
  | cons x xs ih =>
    by_cases hx : p x = true
    · simp [replaceWhere, List.countP_cons, hx, hy] at *
      omega
    · have hx' : p x = false := by simp [hx]
      simp [replaceWhere, List.countP_cons, hx', hy] at *
      omega

/-- Replacing matching rows twice by the same matching row is the same as
replacing them once. -/
theorem replaceWhere_replaceWhere {p : α → Bool} {y : α} (hy : p y = true)
    (l : List α) : replaceWhere p y (replaceWhere p y l) = replaceWhere p y l := by
  induction l with
  | nil => rfl
  | cons x xs ih =>
    by_cases hx : p x = true
    · simp [replaceWhere, hx, hy] at *
      exact ih
    · have hx' : p x = false := by simp [hx]
      simp [replaceWhere, hx', hy] at *
      exact ih

/-- A filter keeping every row is the identity (restatement of the library
lemma in the Bool shape the handlers use). -/
theorem filter_all_true {p : α → Bool} {l : List α}
    (h : ∀ a ∈ l, p a = true) : l.filter p = l := by
  induction l with
  | nil => rfl
  | cons x xs ih =>
    rw [List.filter_cons, if_pos (h x (by simp))]
    rw [ih (fun a ha => h a (by simp [ha]))]

/-- The prisma update payload of a field is idempotent. -/
theorem updField_idem (v o : Option String) :
    updField v (updField v o) = updField v o := by
  cases v <;> rfl

/-- Applying the same membership-update payload twice equals applying it
once. -/
theorem applyMemberUpdate_idem (b : JoinBody) (m : ProjectMember) :
    applyMemberUpdate b (applyMemberUpdate b m) = applyMemberUpdate b m := by
  simp [applyMemberUpdate, updField_idem]

/-- The membership update does not change the composite key fields. -/
theorem memberKey_applyMemberUpdate (c pid : String) (b : JoinBody)
    (m : ProjectMember) :
    memberKey c pid (applyMemberUpdate b m) = memberKey c pid m := rfl

/-- C3 (confirmed): every Apply call whose payload has
`agreedToGuidelines = false` returns a validation error (the missing
projectId message or the guidelines message, both HTTP 400) and leaves the
store completely unchanged: no ProjectMember row is created or modified. -/
theorem apply_guidelines_false_no_write
    (caller : User) (body : JoinBody) (s : Store)
    (hag : body.agreedToGuidelines = false) :
    (joinPOST caller body s).2 = s ∧
    ((joinPOST caller body s).1 = Except.error (.validation "projectId required") ∨
     (joinPOST caller body s).1 = Except.error (.validation "You must agree to guidelines")) := by
  unfold joinPOST
  cases h : orUndefined body.projectId with
  | none => simp
  | some pid => simp [hag]

/-- Witness for C3: a concrete Apply call with the guidelines box unchecked
leaves a concrete store unchanged and yields the validation error. -/
theorem apply_guidelines_false_no_write_witness :
    (joinPOST
        { id := "u1", email := "u1@x", firstName := none, lastName := none, imageUrl := none }
        { projectId := some "p1", fullName := none, contactInfo := none,
          portfolioUrl := none, skills := SkillsField.other, preferredRole := none,
          availability := none, motivation := none, agreedToGuidelines := false }
        { users := [], projects := [], members := [], skills := [] }).2 =
      { users := [], projects := [], members := [], skills := [] } ∧
    ((joinPOST
        { id := "u1", email := "u1@x", firstName := none, lastName := none, imageUrl := none }
        { projectId := some "p1", fullName := none, contactInfo := none,
          portfolioUrl := none, skills := SkillsField.other, preferredRole := none,
          availability := none, motivation := none, agreedToGuidelines := false }
        { users := [], projects := [], members := [], skills := [] }).1 =
        Except.error (.validation "projectId required") ∨
     (joinPOST
        { id := "u1", email := "u1@x", firstName := none, lastName := none, imageUrl := none }
        { projectId := some "p1", fullName := none, contactInfo := none,
          portfolioUrl := none, skills := SkillsField.other, preferredRole := none,
          availability := none, motivation := none, agreedToGuidelines := false }
        { users := [], projects := [], members := [], skills := [] }).1 =
        Except.error (.validation "You must agree to guidelines")) :=
  apply_guidelines_false_no_write _ _ _ (by decide)

/-- C10 (confirmed): in the Apply handler the guidelines check precedes the
project lookup: with a projectId present and `agreedToGuidelines = false`
the call returns the guidelines validation error for every store, in
particular for any store in which no project with that id exists, and the
store (hence the project lookup) is untouched. -/
theorem apply_guidelines_precedes_lookup
    (caller : User) (body : JoinBody) (pid : String) (s : Store)
    (hpid : orUndefined body.projectId = some pid)
    (hag : body.agreedToGuidelines = false) :
    (joinPOST caller body s).1 = Except.error (.validation "You must agree to guidelines") ∧
    (joinPOST caller body s).2 = s := by
  unfold joinPOST
  rw [hpid]
  simp [hag]

/-- Witness for C10: a concrete Apply call with guidelines unchecked on a
store that has no project at all still yields the guidelines validation
error, not a not-found error. -/
theorem apply_guidelines_precedes_lookup_witness :
    (joinPOST
        { id := "u1", email := "u1@x", firstName := none, lastName := none, imageUrl := none }
        { projectId := some "missing", fullName := none, contactInfo := none,
          portfolioUrl := none, skills := SkillsField.other, preferredRole := none,
          availability := none, motivation := none, agreedToGuidelines := false }
        { users := [], projects := [], members := [], skills := [] }).1 =
      Except.error (.validation "You must agree to guidelines") ∧
    (joinPOST
        { id := "u1", email := "u1@x", firstName := none, lastName := none, imageUrl := none }
        { projectId := some "missing", fullName := none, contactInfo := none,
          portfolioUrl := none, skills := SkillsField.other, preferredRole := none,
          availability := none, motivation := none, agreedToGuidelines := false }
        { users := [], projects := [], members := [], skills := [] }).2 =
      { users := [], projects := [], members := [], skills := [] } :=
  apply_guidelines_precedes_lookup _ _ "missing" _ (by decide) (by decide)

/-- C4 (confirmed): a Respond(accept) call on an existing project by a
caller who is not the creator of the project fails with the forbidden error
and leaves the store, in particular the status of the target membership,
unchanged. -/
theorem respond_noncreator_forbidden
    (callerId pid mid : String) (now : Nat) (s : Store) (proj : Project)
    (hpid : pid ≠ "") (hmid : mid ≠ "")
    (hproj : s.projects.find? (fun p => p.id == pid) = some proj)
    (hnc : proj.creatorId ≠ callerId) :
    (memberPATCH callerId (some pid) (some mid) "accept" now s).1 =
      Except.error (.forbidden "Forbidden") ∧
    (memberPATCH callerId (some pid) (some mid) "accept" now s).2 = s := by
  have hacc : lowerStr "accept" = "accept" := by decide
  have h1 : (pid == "") = false := beq_eq_false_iff_ne.mpr hpid
  have h2 : (mid == "") = false := beq_eq_false_iff_ne.mpr hmid
  unfold memberPATCH
  rw [hacc]
  simp [isBlank, h1, h2, hproj, hnc]


/-- Example project used by concrete witnesses: owned by user `c1`, with no
duration set. -/
def exProject : Project :=
  { id := "p1", title := "T", shortDescription := "S", description := "D",
    category := "Web", requiredSkills := [], difficulty := "Beginner",
    teamSize := none, status := some "Open", durationWeeks := none,
    creatorId := "c1", attachments := [], bannerUrl := none,
    featured := false, createdAt := 0 }

/-- Example membership row used by concrete witnesses: user `u2` applied to
project `p1` and was accepted at time 100. -/
def exMemberAccepted : ProjectMember :=
  { userId := "u2", projectId := "p1", role := "Backend", fullName := none,
    contactInfo := none, portfolioUrl := none, skills := [],
    preferredRole := none, availability := none, motivation := none,
    agreedToGuidelines := true, status := .ACCEPTED, acceptedAt := some 100 }

/-- Example store used by concrete witnesses. -/
def exStore : Store :=
  { users := [], projects := [exProject], members := [exMemberAccepted], skills := [] }

/-- Witness for C4: a concrete non-creator Respond(accept) call is rejected
as forbidden and changes nothing. -/
theorem respond_noncreator_forbidden_witness :
    (memberPATCH "intruder" (some "p1") (some "u2") "accept" 7 exStore).1 =
      Except.error (.forbidden "Forbidden") ∧
    (memberPATCH "intruder" (some "p1") (some "u2") "accept" 7 exStore).2 = exStore :=
  respond_noncreator_forbidden "intruder" "p1" "u2" 7 exStore exProject
    (by decide) (by decide) (by decide) (by decide)

/-- C1 (amended): for a Respond call by the creator of the project on an
existing membership, accept sets status to ACCEPTED and the acceptance
timestamp to the time of the call, while reject sets status to REJECTED and
leaves the acceptance timestamp exactly as it was: rejecting a
previously accepted membership keeps its non-null timestamp, and only a
membership whose timestamp was already null ends up with a null one. -/
theorem respond_accept_reject_effect
    (callerId pid mid : String) (now : Nat) (s : Store)
    (proj : Project) (m : ProjectMember)
    (hpid : pid ≠ "") (hmid : mid ≠ "")
    (hproj : s.projects.find? (fun p => p.id == pid) = some proj)
    (hcreator : proj.creatorId = callerId)
    (hm : s.members.find? (memberKey mid pid) = some m) :
    ((memberPATCH callerId (some pid) (some mid) "accept" now s).1 =
        Except.ok { m with status := .ACCEPTED, acceptedAt := some now } ∧
      ((memberPATCH callerId (some pid) (some mid) "accept" now s).2).members.find?
          (memberKey mid pid) =
        some { m with status := .ACCEPTED, acceptedAt := some now }) ∧
    ((memberPATCH callerId (some pid) (some mid) "reject" now s).1 =
        Except.ok { m with status := .REJECTED, acceptedAt := m.acceptedAt } ∧
      ((memberPATCH callerId (some pid) (some mid) "reject" now s).2).members.find?
          (memberKey mid pid) =
        some { m with status := .REJECTED, acceptedAt := m.acceptedAt }) := by
  have hacc : lowerStr "accept" = "accept" := by decide
  have hrej : lowerStr "reject" = "reject" := by decide
  have h1 : (pid == "") = false := beq_eq_false_iff_ne.mpr hpid
  have h2 : (mid == "") = false := beq_eq_false_iff_ne.mpr hmid
  have hkey : memberKey mid pid m = true := List.find?_some hm
  constructor
  · unfold memberPATCH
    rw [hacc]
    simp only [isBlank, Option.getD_some, h1, h2, Bool.or_self, Bool.or_false,
      Bool.false_or, hproj]
    simp only [hcreator, ne_eq, not_true_eq_false, if_false, ite_false]
    have : ((("accept" : String) == "") = false) := by decide
    simp only [this, Bool.false_or, Bool.or_false, if_neg, Bool.false_eq_true,
      not_false_eq_true]
    simp only [show (("accept" : String) == "accept") = true from by decide, if_true]
    rw [hm]
    refine ⟨rfl, ?_⟩
    exact find?_replaceWhere hm hkey
  · unfold memberPATCH
    rw [hrej]
    simp only [isBlank, Option.getD_some, h1, h2, Bool.or_self, Bool.or_false,
      Bool.false_or, hproj]
    simp only [hcreator, ne_eq, not_true_eq_false, if_false, ite_false]
    have : ((("reject" : String) == "") = false) := by decide
    simp only [this, Bool.false_or, Bool.or_false]
    simp only [show (("reject" : String) == "accept") = false from by decide,
      show (("reject" : String) == "reject") = true from by decide, if_true]
    rw [hm]
    refine ⟨rfl, ?_⟩
    exact find?_replaceWhere hm hkey

/-- Witness for C1: a concrete creator accept call stamps the time of the
call, and a concrete creator reject call keeps the stored timestamp. -/
theorem respond_accept_reject_effect_witness :
    ((memberPATCH "c1" (some "p1") (some "u2") "accept" 7 exStore).1 =
        Except.ok { exMemberAccepted with status := .ACCEPTED, acceptedAt := some 7 } ∧
      ((memberPATCH "c1" (some "p1") (some "u2") "accept" 7 exStore).2).members.find?
          (memberKey "u2" "p1") =
        some { exMemberAccepted with status := .ACCEPTED, acceptedAt := some 7 }) ∧
    ((memberPATCH "c1" (some "p1") (some "u2") "reject" 7 exStore).1 =
        Except.ok { exMemberAccepted with status := .REJECTED, acceptedAt := exMemberAccepted.acceptedAt } ∧
      ((memberPATCH "c1" (some "p1") (some "u2") "reject" 7 exStore).2).members.find?
          (memberKey "u2" "p1") =
        some { exMemberAccepted with status := .REJECTED, acceptedAt := exMemberAccepted.acceptedAt }) :=
  respond_accept_reject_effect "c1" "p1" "u2" 7 exStore exProject exMemberAccepted
    (by decide) (by decide) (by decide) (by decide) (by decide)

/-- Counterexample for C1 as stated: the creator of project `p1` rejects the
membership of `u2`, which had been accepted at time 100; the resulting row
has status REJECTED but its acceptance timestamp is still `some 100`, not
null, contradicting the claim that a reject always yields a null acceptance
timestamp. -/
theorem respond_reject_claim_counterexample :
    ((memberPATCH "c1" (some "p1") (some "u2") "reject" 200 exStore).2).members.map
        (fun m => (m.status, m.acceptedAt)) =
      [(MemberStatus.REJECTED, some 100)] := by
  decide


/-- Running the Apply handler on a store that passes the guidelines check,
has the project, and already has a membership row for the caller reduces to
the in-place update of that row. -/
theorem joinPOST_run (caller : User) (body : JoinBody) (pid : String)
    (t : Store) (m : ProjectMember)
    (hpid : orUndefined body.projectId = some pid)
    (hag : body.agreedToGuidelines = true)
    (hfind : (t.projects.find? (fun p => p.id == pid)).isSome = true)
    (hm : t.members.find? (memberKey caller.id pid) = some m) :
    joinPOST caller body t =
      (Except.ok (applyMemberUpdate body m),
       Store.mk (upsertUser caller t).users t.projects
         (replaceWhere (memberKey caller.id pid) (applyMemberUpdate body m) t.members)
         t.skills) := by
  obtain ⟨proj, hp⟩ := Option.isSome_iff_exists.mp hfind
  unfold joinPOST
  rw [hpid]
  simp only [hag, Bool.not_true, Bool.false_eq_true, if_false]
  rw [hp]
  rw [upsertUser_members, upsertUser_projects, upsertUser_skills, hm]

/-- When the row is already a fixed point of the update, the caller is
already in the user table and the membership list is already a fixed point
of the replacement, the Apply handler leaves the store unchanged. -/
theorem joinPOST_fix (caller : User) (body : JoinBody) (pid : String)
    (t : Store) (m : ProjectMember)
    (hpid : orUndefined body.projectId = some pid)
    (hag : body.agreedToGuidelines = true)
    (hfind : (t.projects.find? (fun p => p.id == pid)).isSome = true)
    (hm : t.members.find? (memberKey caller.id pid) = some m)
    (huser : t.users.any (fun x => x.id == caller.id) = true)
    (hfixm : applyMemberUpdate body m = m)
    (hfixl : replaceWhere (memberKey caller.id pid) m t.members = t.members) :
    (joinPOST caller body t).2 = t := by
  rw [joinPOST_run caller body pid t m hpid hag hfind hm]
  rw [show (Except.ok (applyMemberUpdate body m),
       Store.mk (upsertUser caller t).users t.projects
         (replaceWhere (memberKey caller.id pid) (applyMemberUpdate body m) t.members)
         t.skills).2 =
      Store.mk (upsertUser caller t).users t.projects
        (replaceWhere (memberKey caller.id pid) (applyMemberUpdate body m) t.members)
        t.skills from rfl]
  rw [hfixm, hfixl, upsertUser_of_any caller t huser]

/-- C2 (amended): when a prior membership row exists for the caller and the
project (uniquely, as the composite unique constraint guarantees), Apply
updates that row in place: afterwards exactly one row exists for the pair
and it equals the old row with the update payload applied, where a payload
field that is present (non-empty) overwrites the stored value, an absent or
empty payload field leaves the stored value unchanged, the skills list and
the guidelines flag are always overwritten, and the role, the status and
the acceptance timestamp of the row are left untouched; calling Apply a
second time with the same payload returns the same row and leaves the store
of the first call unchanged. -/
theorem apply_existing_updates_in_place
    (caller : User) (body : JoinBody) (pid : String) (s : Store) (m : ProjectMember)
    (hpid : orUndefined body.projectId = some pid)
    (hag : body.agreedToGuidelines = true)
    (hproj : (s.projects.find? (fun p => p.id == pid)).isSome = true)
    (hm : s.members.find? (memberKey caller.id pid) = some m)
    (hone : s.members.countP (memberKey caller.id pid) = 1) :
    (joinPOST caller body s).1 = Except.ok (applyMemberUpdate body m) ∧
    ((joinPOST caller body s).2).members.countP (memberKey caller.id pid) = 1 ∧
    ((joinPOST caller body s).2).members.find? (memberKey caller.id pid) =
      some (applyMemberUpdate body m) ∧
    (applyMemberUpdate body m).status = m.status ∧
    (applyMemberUpdate body m).acceptedAt = m.acceptedAt ∧
    (applyMemberUpdate body m).role = m.role ∧
    ((joinPOST caller body s).2).projects = s.projects ∧
    (joinPOST caller body ((joinPOST caller body s).2)).2 = (joinPOST caller body s).2 := by
  have hkey : memberKey caller.id pid m = true := List.find?_some hm
  have hkey' : memberKey caller.id pid (applyMemberUpdate body m) = true := by
    rw [memberKey_applyMemberUpdate]; exact hkey
  have h1 := joinPOST_run caller body pid s m hpid hag hproj hm
  refine ⟨by rw [h1], ?_, ?_, rfl, rfl, rfl, by rw [h1], ?_⟩
  · rw [h1]
    exact (countP_replaceWhere hkey' s.members).trans hone
  · rw [h1]
    exact find?_replaceWhere hm hkey'
  · rw [h1]
    exact joinPOST_fix caller body pid
      (Store.mk (upsertUser caller s).users s.projects
        (replaceWhere (memberKey caller.id pid) (applyMemberUpdate body m) s.members)
        s.skills)
      (applyMemberUpdate body m) hpid hag hproj
      (find?_replaceWhere hm hkey')
      (upsertUser_any caller s)
      (applyMemberUpdate_idem body m)
      (replaceWhere_replaceWhere hkey' s.members)

/-- Example authenticated caller used by concrete witnesses: the user `u2`
who owns the membership row of `exStore`. -/
def exCaller : User :=
  { id := "u2", email := "u2@x", firstName := none, lastName := none, imageUrl := none }

/-- Example Apply payload used by concrete witnesses: guidelines agreed,
preferred role Frontend, one offered skill. -/
def exJoinBody : JoinBody :=
  { projectId := some "p1", fullName := some "New Name", contactInfo := none,
    portfolioUrl := none, skills := SkillsField.list ["TS"],
    preferredRole := some "Frontend", availability := none, motivation := none,
    agreedToGuidelines := true }

/-- Witness for C2: a concrete re-application updates the single existing
row in place, keeps its status, acceptance timestamp and role, and a second
identical call changes nothing. -/
theorem apply_existing_updates_in_place_witness :
    (joinPOST exCaller exJoinBody exStore).1 =
      Except.ok (applyMemberUpdate exJoinBody exMemberAccepted) ∧
    ((joinPOST exCaller exJoinBody exStore).2).members.countP
      (memberKey exCaller.id "p1") = 1 ∧
    ((joinPOST exCaller exJoinBody exStore).2).members.find?
        (memberKey exCaller.id "p1") =
      some (applyMemberUpdate exJoinBody exMemberAccepted) ∧
    (applyMemberUpdate exJoinBody exMemberAccepted).status = exMemberAccepted.status ∧
    (applyMemberUpdate exJoinBody exMemberAccepted).acceptedAt = exMemberAccepted.acceptedAt ∧
    (applyMemberUpdate exJoinBody exMemberAccepted).role = exMemberAccepted.role ∧
    ((joinPOST exCaller exJoinBody exStore).2).projects = exStore.projects ∧
    (joinPOST exCaller exJoinBody ((joinPOST exCaller exJoinBody exStore).2)).2 =
      (joinPOST exCaller exJoinBody exStore).2 :=
  apply_existing_updates_in_place exCaller exJoinBody "p1" exStore exMemberAccepted
    (by decide) (by decide) (by decide) (by decide) (by decide)

/-- Counterexample for C2 as stated: the user `u2` re-applies to project
`p1` asking for role Frontend while the stored row has role Backend; after
the call the single row still has role Backend (with the preferred-role
application field updated to Frontend), so the role is not overwritten by
the new payload as the claim states. -/
theorem apply_role_not_overwritten_counterexample :
    ((joinPOST exCaller exJoinBody exStore).2).members.map
        (fun m => (m.role, m.preferredRole)) =
      [("Backend", some "Frontend")] := by
  decide

/-- C5 (amended): with only the maxDuration filter set, the in-memory
filter path (`applyFiltersToArray`, applied to the JSON-file fallback
items) keeps exactly the projects whose duration is unset or at most n —
a project with unset duration is never excluded there — while the
database path (`projectsGET_db`, the `where durationWeeks lte n` clause of
`findMany`) keeps exactly the projects whose duration is set and at most
n, so it also excludes every project whose duration is unset. -/
theorem maxDuration_filter_paths (n : Int) (items : List Project) (s : Store)
    (p : Project) :
    (p ∈ applyFiltersToArray none none none none (some n) items ↔
      p ∈ items ∧ ∀ d, p.durationWeeks = some d → d ≤ n) ∧
    (p ∈ projectsGET_db none none none none (some n) s ↔
      p ∈ s.projects ∧ ∃ d, p.durationWeeks = some d ∧ d ≤ n) := by
  constructor
  · cases hd : p.durationWeeks with
    | none => simp [applyFiltersToArray, fallbackMatches, List.mem_filter, hd]
    | some d => simp [applyFiltersToArray, fallbackMatches, List.mem_filter, hd]
  · cases hd : p.durationWeeks with
    | none => simp [projectsGET_db, prismaWhereMatches, List.mem_filter, hd]
    | some d => simp [projectsGET_db, prismaWhereMatches, List.mem_filter, hd]

/-- Counterexample for C5 as stated: a listing with maxDuration = 4 served
by the database path on a store whose only project has durationWeeks unset
returns the empty list — the null-duration project is excluded by the
filter, contradicting the claim that such projects are never excluded. -/
theorem maxDuration_null_excluded_db_counterexample :
    projectsGET_db none none none none (some 4) exStore = [] ∧
    exStore.projects.map (fun p => p.durationWeeks) = [none] := by
  decide

/-- C6 (confirmed): Delete on the project registry fails with not-found when
no project has the id, fails with forbidden when the caller is not the
creator (store untouched in both cases), and otherwise succeeds, removes
every membership row of the project, removes the project, and no listing of
the resulting store, under any filters, contains a project with that id. -/
theorem project_delete_spec (callerId pid : String) (s : Store) (hpid : pid ≠ "") :
    (s.projects.find? (fun p => p.id == pid) = none →
      (projectsDELETE callerId (some pid) s).1 = Except.error (.notFound "Not found") ∧
      (projectsDELETE callerId (some pid) s).2 = s) ∧
    (∀ proj, s.projects.find? (fun p => p.id == pid) = some proj →
      proj.creatorId ≠ callerId →
      (projectsDELETE callerId (some pid) s).1 = Except.error (.forbidden "Forbidden") ∧
      (projectsDELETE callerId (some pid) s).2 = s) ∧
    (∀ proj, s.projects.find? (fun p => p.id == pid) = some proj →
      proj.creatorId = callerId →
      (projectsDELETE callerId (some pid) s).1 = Except.ok () ∧
      (∀ m ∈ ((projectsDELETE callerId (some pid) s).2).members, m.projectId ≠ pid) ∧
      (∀ q ∈ ((projectsDELETE callerId (some pid) s).2).projects, q.id ≠ pid) ∧
      (∀ fq fc fd fs0 fn, ∀ q ∈ projectsGET_db fq fc fd fs0 fn
          ((projectsDELETE callerId (some pid) s).2), q.id ≠ pid)) := by
  have h1 : (pid == "") = false := beq_eq_false_iff_ne.mpr hpid
  refine ⟨?_, ?_, ?_⟩
  · intro hn
    unfold projectsDELETE
    simp [isBlank, h1, hn]
  · intro proj hf hnc
    unfold projectsDELETE
    simp [isBlank, h1, hf, hnc]
  · intro proj hf hc
    have hrun : projectsDELETE callerId (some pid) s =
        (Except.ok (),
         { s with members := s.members.filter (fun m => !(m.projectId == pid)),
                  projects := s.projects.filter (fun q => !(q.id == pid)) }) := by
      unfold projectsDELETE
      simp [isBlank, h1, hf, hc]
    rw [hrun]
    refine ⟨rfl, ?_, ?_, ?_⟩
    · intro m hm
      have := (List.mem_filter.mp hm).2
      simpa [beq_iff_eq] using this
    · intro q hq
      have := (List.mem_filter.mp hq).2
      simpa [beq_iff_eq] using this
    · intro fq fc fd fs0 fn q hq
      have hq2 := List.mem_of_mem_filter hq
      have := (List.mem_filter.mp hq2).2
      simpa [beq_iff_eq] using this

/-- Witness for C6: the creator deletes the concrete project `p1`; the call
succeeds and the resulting store has no membership rows and no projects
left. -/
theorem project_delete_spec_witness :
    (projectsDELETE "c1" (some "p1") exStore).1 = Except.ok () ∧
    ((projectsDELETE "c1" (some "p1") exStore).2).members = [] ∧
    ((projectsDELETE "c1" (some "p1") exStore).2).projects = [] :=
  ⟨((project_delete_spec "c1" "p1" exStore (by decide)).2.2 exProject (by decide)
      (by decide)).1,
   by decide, by decide⟩

/-- C7 (confirmed): a Remove call by an authorized caller (the creator or
the member themself) on an existing project with no matching membership row
succeeds, leaves the store unchanged, and a second identical call succeeds
as well: the delete is idempotent. -/
theorem remove_nonexistent_idempotent
    (callerId pid mid : String) (s : Store) (proj : Project)
    (hpid : pid ≠ "") (hmid : mid ≠ "")
    (hproj : s.projects.find? (fun p => p.id == pid) = some proj)
    (hauth : proj.creatorId = callerId ∨ mid = callerId)
    (hnone : ∀ m ∈ s.members, ¬(m.projectId = pid ∧ m.userId = mid)) :
    (memberDELETE callerId (some pid) (some mid) s).1 = Except.ok () ∧
    (memberDELETE callerId (some pid) (some mid) s).2 = s ∧
    (memberDELETE callerId (some pid) (some mid)
        ((memberDELETE callerId (some pid) (some mid) s).2)).1 = Except.ok () := by
  have h1 : (pid == "") = false := beq_eq_false_iff_ne.mpr hpid
  have h2 : (mid == "") = false := beq_eq_false_iff_ne.mpr hmid
  have hna : ¬(proj.creatorId ≠ callerId ∧ mid ≠ callerId) := by
    rcases hauth with h | h
    · exact fun hc => hc.1 h
    · exact fun hc => hc.2 h
  have hfix : s.members.filter (fun m => !(m.projectId == pid && m.userId == mid)) =
      s.members := by
    apply filter_all_true
    intro a ha
    have hno := hnone a ha
    rcases Decidable.em (a.projectId = pid) with hp | hp
    · have hu : a.userId ≠ mid := fun hu => hno ⟨hp, hu⟩
      simp [beq_iff_eq, hp, hu]
    · simp [beq_iff_eq, hp]
  have hrun : memberDELETE callerId (some pid) (some mid) s = (Except.ok (), s) := by
    unfold memberDELETE
    simp only [isBlank, Option.getD_some, h1, h2, Bool.or_self, Bool.false_eq_true,
      if_false, hproj]
    rw [if_neg hna, hfix]
  refine ⟨by rw [hrun], by rw [hrun], ?_⟩
  show (memberDELETE callerId (some pid) (some mid)
      ((memberDELETE callerId (some pid) (some mid) s).2)).1 = Except.ok ()
  rw [hrun]
  rw [show ((Except.ok (), s) : Except ApiError Unit × Store).2 = s from rfl]
  rw [hrun]

/-- Witness for C7: the creator removes a user with no membership row from
the concrete project `p1`; the call succeeds, the store is unchanged and a
repeated call succeeds again. -/
theorem remove_nonexistent_idempotent_witness :
    (memberDELETE "c1" (some "p1") (some "zz") exStore).1 = Except.ok () ∧
    (memberDELETE "c1" (some "p1") (some "zz") exStore).2 = exStore ∧
    (memberDELETE "c1" (some "p1") (some "zz")
        ((memberDELETE "c1" (some "p1") (some "zz") exStore).2)).1 = Except.ok () :=
  remove_nonexistent_idempotent "c1" "p1" "zz" exStore exProject
    (by decide) (by decide) (by decide) (Or.inl (by decide)) (by decide)

/-- Every entry the skill normalization of the Create handler produces is a
non-empty string. -/
theorem normalizedSkills_ne_empty (f : SkillsField) :
    ∀ x ∈ normalizedSkills f, x ≠ "" := by
  intro x hx
  cases f with
  | list xs => exact of_decide_eq_true (List.mem_filter.mp hx).2
  | str s0 => exact of_decide_eq_true (List.mem_filter.mp hx).2
  | other => exact absurd hx (List.not_mem_nil x)

/-- C8 (amended): every project the Create handler stores has as its
requiredSkills exactly the normalization of the input — each entry is an
input token passed through trim, empty results are dropped, and both the
list form and the comma-separated string form of the input are accepted —
so no stored entry is empty; duplicates, however, are preserved: the
normalization does not deduplicate. -/
theorem create_requiredSkills_normalized
    (body : CreateBody) (newId : String) (now : Nat) (s : Store) (proj : Project)
    (hok : (projectsPOST body newId now s).1 = Except.ok proj) :
    proj.requiredSkills = normalizedSkills body.requiredSkills ∧
    ∀ x ∈ proj.requiredSkills, x ≠ "" := by
  unfold projectsPOST at hok
  split at hok
  · simp only [Except.ok.injEq] at hok
    rw [← hok]
    exact ⟨rfl, normalizedSkills_ne_empty body.requiredSkills⟩
  · exact absurd hok (by simp)

/-- Example Create payload used by concrete witnesses: the requiredSkills
field is the comma-separated string with a repeated token. -/
def exCreateBody : CreateBody :=
  { title := some "T", shortDescription := some "S", description := some "D",
    category := some "C", requiredSkills := SkillsField.str "a, a",
    difficulty := some "Beginner", teamSize := none, status := some "Open",
    durationWeeks := none, creatorId := some "u1", attachments := none,
    bannerUrl := none }

/-- The project row the Create handler stores for `exCreateBody`. -/
def exCreatedProject : Project :=
  { id := "p9", title := "T", shortDescription := "S", description := "D",
    category := "C", requiredSkills := ["a", "a"], difficulty := "Beginner",
    teamSize := none, status := some "Open", durationWeeks := none,
    creatorId := "u1", attachments := [], bannerUrl := none, featured := false,
    createdAt := 0 }

/-- Witness for C8: the concrete created row carries exactly the normalized
skills of the concrete payload. -/
theorem create_requiredSkills_normalized_witness :
    exCreatedProject.requiredSkills = normalizedSkills exCreateBody.requiredSkills :=
  (create_requiredSkills_normalized exCreateBody "p9" 0 exStore exCreatedProject
    (by decide)).1

/-- Counterexample for C8 as stated: creating a project with the input
string with a repeated token stores the list with the token twice — the
stored list is not deduplicated, contradicting the claim. -/
theorem create_requiredSkills_duplicates_counterexample :
    (projectsPOST exCreateBody "p9" 0 exStore).1 = Except.ok exCreatedProject ∧
    exCreatedProject.requiredSkills = ["a", "a"] ∧
    ¬ exCreatedProject.requiredSkills.Nodup := by
  refine ⟨by decide, by decide, by decide⟩

/-- C9 (amended): a skill delete call whose caller does not own the row with
the given id (the compound Prisma where clause then matches nothing and the
delete throws) fails with the generic internal error of the handler — an
HTTP 500, not a forbidden 403 — and the store, in particular the row, is
unchanged. -/
theorem skill_delete_wrong_owner
    (callerId i : String) (s : Store)
    (hex : (s.skills.find? (fun sk => sk.id == i)).isSome = true)
    (hnotown : ∀ sk ∈ s.skills, sk.id = i → sk.userId ≠ callerId) :
    (skillsDELETE callerId (some i) s).1 =
      Except.error (.internal "Failed to delete skill.") ∧
    (skillsDELETE callerId (some i) s).2 = s := by
  have hnone : s.skills.find? (fun sk => sk.id == i && sk.userId == callerId) = none := by
    rw [List.find?_eq_none]
    intro sk hsk hcontra
    have hab : sk.id = i ∧ sk.userId = callerId := by simpa using hcontra
    exact hnotown sk hsk hab.1 hab.2
  unfold skillsDELETE
  dsimp only
  rw [hnone]
  exact ⟨rfl, rfl⟩

/-- Example store used by the skill-delete witnesses: one skill row with id
`k1` owned by user `u1`. -/
def exSkillStore : Store :=
  { users := [], projects := [], members := [],
    skills := [{ id := "k1", name := "React", level := "Advanced",
                 category := "Frontend", type := "learned", userId := "u1" }] }

/-- Witness for C9: user `u2` tries to delete the skill `k1` owned by `u1`;
the call fails with the generic internal error and the row survives. -/
theorem skill_delete_wrong_owner_witness :
    (skillsDELETE "u2" (some "k1") exSkillStore).1 =
      Except.error (.internal "Failed to delete skill.") ∧
    (skillsDELETE "u2" (some "k1") exSkillStore).2 = exSkillStore :=
  skill_delete_wrong_owner "u2" "k1" exSkillStore (by decide) (by decide)

/-- Counterexample for C9 as stated: the wrong-owner delete of skill `k1`
returns the internal error (HTTP 500), which is not a forbidden error of
any message, while the row is kept — so the claim that the call fails with
a forbidden error is false on the code. -/
theorem skill_delete_wrong_owner_counterexample :
    (skillsDELETE "u2" (some "k1") exSkillStore).1 =
      Except.error (.internal "Failed to delete skill.") ∧
    (match (skillsDELETE "u2" (some "k1") exSkillStore).1 with
      | Except.error (ApiError.forbidden _) => true
      | _ => false) = false ∧
    (skillsDELETE "u2" (some "k1") exSkillStore).2 = exSkillStore := by
  refine ⟨by decide, by decide, by decide⟩
